import Mathlib

/-!
Verification of the clipboard image bridge of the qrcode_make application
(`src/main.go`), as a shallow embedding: the Go functions
`copyImageToClipboardWindows`, `copyImageToClipboardOther` and
`copyImageToClipboard` are modelled as pure functions from an environment
describing the outcome of each OS interaction (temp directory, file
creation, PNG encoding, file close, file removal, external process) to the
returned error (`Option String`, `none` meaning the Go `nil` error) paired
with the chronological trace of side effects the call performs.  The UI
call-site logic (`generateAction`, `copyAction`) is modelled at the end.
-/

namespace QrcodeMake

/-- A decoded raster image (the payload behind a non-nil Go `image.Image`
interface value).  The helper never inspects the pixels, only passes the
value on, so width/height suffice as a stand-in for the bitmap. -/
structure RasterImage where
  width : Nat
  height : Nat
  deriving DecidableEq, Repr

/-- A Go `image.Image` interface value: possibly nil. -/
abbrev GoImage : Type := Option RasterImage

/-- Outcome of the `os.Remove` call in the deferred cleanup:
success, `os.IsNotExist`-style absence, or some other error. -/
inductive RemoveOutcome : Type where
  | removed : RemoveOutcome
  | notExist : RemoveOutcome
  | failed : String → RemoveOutcome
  deriving DecidableEq, Repr

/-- One observable side effect of a call, in chronological order. -/
inductive Effect : Type where
  | createFile : String → Effect
  | pngEncode : String → GoImage → Effect
  | closeFile : String → Effect
  | removeFile : String → Effect
  | runProcess : String → List String → Effect
  | logLine : String → Effect
  deriving DecidableEq, Repr

/-- The environment of one call: what the OS answers to each interaction.
Error payloads are the message strings of the underlying Go errors
(`%w`/`%v` render an error as its message). -/
structure Env where
  goos : String
  tmpDir : String
  pid : Nat
  unixNano : Nat
  createErr : Option String
  encodeErr : Option String
  closeErr : Option String
  deferCloseErr : Option String
  removeOutcome : RemoveOutcome
  procErr : Option String
  procOutput : String
  deriving DecidableEq, Repr

/-- `fmt.Sprintf("temp_qrcode_%d_%d.png", os.Getpid(), time.Now().UnixNano())`. -/
def tmpFileNameOf (pid unixNano : Nat) : String :=
  "temp_qrcode_" ++ Nat.repr pid ++ "_" ++ Nat.repr unixNano ++ ".png"

/-- `filepath.Join(dir, name)` on Windows, for a clean directory path:
dir, separator `\`, name.  (The `Clean` step of the real `Join` is the
identity on the dot-free paths used here.) -/
def filepathJoin (dir name : String) : String :=
  dir ++ "\\" ++ name

/-- `filepath.ToSlash`: replace every `\` by `/`. -/
def filepathToSlash (p : String) : String :=
  String.mk (p.data.map (fun c => if c = '\\' then '/' else c))

/-- The PowerShell script block built by `copyImageToClipboardWindows`,
with the (slash-normalized) temp file path substituted for `%s`. -/
def psCmdOf (psEscapedPath : String) : String :=
  "\nAdd-Type -AssemblyName System.Windows.Forms;\n$ErrorActionPreference = \x27Stop\x27;\ntry \x7b\n    $img = [System.Drawing.Image]::FromFile(\x27"
    ++ psEscapedPath ++
    "\x27);\n    [System.Windows.Forms.Clipboard]::SetImage($img);\n    $img.Dispose();\n\x7d catch \x7b\n    Write-Error \"クリップボードへの画像設定中にエラーが発生しました: $($_.Exception.Message)\";\n    exit 1;\n\x7d\n"

/-- The deferred cleanup registered right after `os.Create` succeeds:
close the file (log-only on error), then remove it (log-only on error,
`os.IsNotExist` ignored, success logged).  Runs on every later exit path;
its outcome never reaches the function result. -/
def cleanupEffects (env : Env) (path : String) : List Effect :=
  [Effect.closeFile path]
    ++ (match env.deferCloseErr with
        | some e => [Effect.logLine ("一時ファイルクローズエラー (" ++ path ++ "): " ++ e)]
        | none => [])
    ++ [Effect.removeFile path]
    ++ (match env.removeOutcome with
        | RemoveOutcome.failed e =>
            [Effect.logLine ("一時ファイル削除失敗 (" ++ path ++ "): " ++ e)]
        | RemoveOutcome.removed =>
            [Effect.logLine ("一時ファイル削除成功 (" ++ path ++ ")")]
        | RemoveOutcome.notExist => [])

/-- `copyImageToClipboardWindows` (src/main.go lines 29-114): resolve the
temp dir, build the unique file name, create the file, register the
deferred cleanup, PNG-encode, close, run PowerShell synchronously, and
return `nil` exactly when the process ran without error.  Returns the Go
error (as its message) and the chronological effect trace. -/
def copyImageToClipboardWindows (env : Env) (img : GoImage) :
    Option String × List Effect :=
  if env.tmpDir = "" then
    (some "一時ディレクトリが見つかりません", [])
  else
    let tmpFileName := tmpFileNameOf env.pid env.unixNano
    let tmpFilePath := filepathJoin env.tmpDir tmpFileName
    match env.createErr with
    | some e =>
        (some ("一時ファイル作成失敗 (" ++ tmpFilePath ++ "): " ++ e),
         [Effect.createFile tmpFilePath])
    | none =>
        -- The deferred cleanup is registered here; `cleanupEffects` is
        -- appended at the end of every exit path below.
        match env.encodeErr with
        | some e =>
            (some ("PNGエンコード失敗: " ++ e),
             [Effect.createFile tmpFilePath, Effect.pngEncode tmpFilePath img]
               ++ cleanupEffects env tmpFilePath)
        | none =>
            match env.closeErr with
            | some e =>
                (some ("一時ファイルへの書き込み完了(クローズ)失敗 ("
                         ++ tmpFilePath ++ "): " ++ e),
                 [Effect.createFile tmpFilePath,
                  Effect.pngEncode tmpFilePath img,
                  Effect.closeFile tmpFilePath]
                   ++ cleanupEffects env tmpFilePath)
            | none =>
                let psEscapedPath := filepathToSlash tmpFilePath
                let psCmd := psCmdOf psEscapedPath
                let runPrefix : List Effect :=
                  [Effect.createFile tmpFilePath,
                   Effect.pngEncode tmpFilePath img,
                   Effect.closeFile tmpFilePath,
                   Effect.runProcess "powershell" ["-Command", psCmd],
                   Effect.logLine ("実行したPowerShellコマンド: powershell -Command \"" ++ psCmd ++ "\""),
                   Effect.logLine ("PowerShellからの出力:\n" ++ env.procOutput)]
                match env.procErr with
                | some e =>
                    (some ("PowerShell実行失敗: " ++ e ++ "\n出力: " ++ env.procOutput),
                     runPrefix ++ cleanupEffects env tmpFilePath)
                | none =>
                    (none,
                     runPrefix
                       ++ [Effect.logLine "PowerShellによるクリップボードへの画像コピー成功"]
                       ++ cleanupEffects env tmpFilePath)

/-- `copyImageToClipboardOther` (src/main.go lines 118-122): the stub for
non-Windows platforms; always fails naming `runtime.GOOS`, no effects. -/
def copyImageToClipboardOther (goos : String) (_img : GoImage) :
    Option String × List Effect :=
  (some ("クリップボードへの画像コピーはこのOSでは現在サポートされていません (" ++ goos ++ ")"), [])

/-- `copyImageToClipboard` (src/main.go lines 125-136): dispatch on
`runtime.GOOS`. -/
def copyImageToClipboard (env : Env) (img : GoImage) :
    Option String × List Effect :=
  if env.goos = "windows" then copyImageToClipboardWindows env img
  else copyImageToClipboardOther env.goos img

/-- The temp file path a call with environment `env` works with
(src/main.go lines 37-38). -/
def tmpPathOf (env : Env) : String :=
  filepathJoin env.tmpDir (tmpFileNameOf env.pid env.unixNano)

/-- Whether an effect is a diagnostic log line (no externally visible
state change). -/
def Effect.isLog : Effect → Bool
  | Effect.logLine _ => true
  | _ => false

/-- Whether an effect is an external-process invocation. -/
def Effect.isRun : Effect → Bool
  | Effect.runProcess _ _ => true
  | _ => false

/-- The filesystem path an effect touches, if any. -/
def Effect.pathOf : Effect → Option String
  | Effect.createFile p => some p
  | Effect.pngEncode p _ => some p
  | Effect.closeFile p => some p
  | Effect.removeFile p => some p
  | _ => none

/-- Environment of the UI `generateAction` closure: the outcomes of
`qrcode.Encode(text, qrcode.Medium, 256)` (PNG bytes or error) and of
`image.Decode` on those bytes (image or error). -/
structure GenEnv where
  qrEncode : String → Except String (List Nat)
  imageDecode : List Nat → Except String RasterImage

/-- `generateAction` (src/main.go lines 184-227), restricted to its effect
on the captured `currentImage` variable: empty input and every library
failure reset it to nil; only full success stores the decoded image. -/
def generateAction (genv : GenEnv) (inputText : String) :
    Option RasterImage :=
  if inputText = "" then none
  else
    match genv.qrEncode inputText with
    | Except.error _ => none
    | Except.ok pngData =>
        match genv.imageDecode pngData with
        | Except.error _ => none
        | Except.ok imgData => some imgData

/-- `copyAction` (src/main.go lines 233-252), restricted to whether and
how it invokes the clipboard helper: `none` means the guard
`currentImage == nil` made it return before calling
`copyImageToClipboard`; otherwise the helper's result and trace. -/
def copyAction (env : Env) (currentImage : Option RasterImage) :
    Option (Option String × List Effect) :=
  match currentImage with
  | none => none
  | some img => some (copyImageToClipboard env (some img))

/-- Numeric value of a decimal digit character. -/
def digitVal (c : Char) : Nat := c.toNat - 48

/-- Decode a most-significant-first list of decimal digit characters. -/
def decodeDec (l : List Char) : Nat :=
  List.foldl (fun acc c => 10 * acc + digitVal c) 0 l

/-- A generation environment in which both library calls succeed, used to
instantiate the call-site theorems at a concrete input. -/
def genEnvOk : GenEnv :=
  { qrEncode := fun _ => Except.ok [1],
    imageDecode := fun _ => Except.ok ⟨256, 256⟩ }

/-- A fully successful environment on Windows, used to instantiate the
theorems below at a concrete input. -/
def baseEnv : Env :=
  { goos := "windows", tmpDir := "C:\\Temp", pid := 7, unixNano := 9,
    createErr := none, encodeErr := none, closeErr := none,
    deferCloseErr := none, removeOutcome := RemoveOutcome.removed,
    procErr := none, procOutput := "" }

/-!
### Decimal representation facts

`fmt.Sprintf("%d", n)` for a non-negative integer is the decimal
representation, i.e. Lean's `Nat.repr`.  The lemmas below establish that
`Nat.repr` is injective and produces only digit characters, which is what
makes `temp_qrcode_<pid>_<nano>.png` collision-free.
-/

theorem toDigitsCore_shift (b : Nat) :
    ∀ (f n : Nat) (ds : List Char),
      Nat.toDigitsCore b f n ds = Nat.toDigitsCore b f n [] ++ ds := by
  intro f
  induction f with
  | zero => intro n ds; simp [Nat.toDigitsCore]
  | succ f ih =>
    intro n ds
    simp only [Nat.toDigitsCore]
    by_cases h : n / b = 0
    · simp [h]
    · simp only [h, if_false]
      rw [ih (n / b) (Nat.digitChar (n % b) :: ds),
          ih (n / b) (Nat.digitChar (n % b) :: [])]
      simp

theorem toDigitsCore_fuel (b : Nat) (hb : 1 < b) :
    ∀ (n f f' : Nat), n < f → n < f' →
      Nat.toDigitsCore b f n [] = Nat.toDigitsCore b f' n [] := by
  intro n
  induction n using Nat.strong_induction_on with
  | _ n ih =>
    intro f f' hf hf'
    cases f with
    | zero => omega
    | succ f =>
      cases f' with
      | zero => omega
      | succ f' =>
        simp only [Nat.toDigitsCore]
        by_cases h : n / b = 0
        · simp [h]
        · simp only [h, if_false]
          have hn : 0 < n := by
            rcases Nat.eq_zero_or_pos n with h0 | h0
            · subst h0; simp at h
            · exact h0
          have hdiv : n / b < n := Nat.div_lt_self hn hb
          rw [toDigitsCore_shift, toDigitsCore_shift b f']
          rw [ih (n / b) hdiv f f' (by omega) (by omega)]

theorem toDigits_lt (b n : Nat) (h : n < b) :
    Nat.toDigits b n = [Nat.digitChar n] := by
  have h0 : n / b = 0 := Nat.div_eq_of_lt h
  have hm : n % b = n := Nat.mod_eq_of_lt h
  simp [Nat.toDigits, Nat.toDigitsCore, h0, hm]

theorem toDigits_ge (b n : Nat) (hb : 1 < b) (h : b ≤ n) :
    Nat.toDigits b n = Nat.toDigits b (n / b) ++ [Nat.digitChar (n % b)] := by
  have h0 : ¬ n / b = 0 := by
    have := Nat.div_pos h (by omega)
    omega
  have hdiv : n / b < n := Nat.div_lt_self (by omega) hb
  show Nat.toDigitsCore b (n + 1) n [] = _
  simp only [Nat.toDigitsCore, h0, if_false]
  rw [toDigitsCore_shift]
  show Nat.toDigitsCore b n (n / b) [] ++ [Nat.digitChar (n % b)]
        = Nat.toDigitsCore b (n / b + 1) (n / b) [] ++ [Nat.digitChar (n % b)]
  rw [toDigitsCore_fuel b hb (n / b) n (n / b + 1) hdiv (by omega)]

theorem digitChar_isDigit (d : Nat) (h : d < 10) :
    (Nat.digitChar d).isDigit = true := by
  have hall : ∀ d, d < 10 → (Nat.digitChar d).isDigit = true := by decide
  exact hall d h

theorem digitVal_digitChar (d : Nat) (h : d < 10) :
    digitVal (Nat.digitChar d) = d := by
  have hall : ∀ d, d < 10 → digitVal (Nat.digitChar d) = d := by decide
  exact hall d h

theorem toDigits_isDigit (n : Nat) :
    ∀ c ∈ Nat.toDigits 10 n, c.isDigit = true := by
  induction n using Nat.strong_induction_on with
  | _ n ih =>
    by_cases h : n < 10
    · rw [toDigits_lt 10 n h]
      intro c hc
      have : c = Nat.digitChar n := by simpa using hc
      subst this
      exact digitChar_isDigit n h
    · rw [toDigits_ge 10 n (by omega) (by omega)]
      intro c hc
      rcases List.mem_append.mp hc with h1 | h2
      · exact ih (n / 10) (Nat.div_lt_self (by omega) (by omega)) c h1
      · have : c = Nat.digitChar (n % 10) := by simpa using h2
        subst this
        exact digitChar_isDigit _ (Nat.mod_lt n (by omega))

theorem decodeDec_append_one (l : List Char) (c : Char) :
    decodeDec (l ++ [c]) = 10 * decodeDec l + digitVal c := by
  simp [decodeDec, List.foldl_append]

theorem decodeDec_toDigits (n : Nat) :
    decodeDec (Nat.toDigits 10 n) = n := by
  induction n using Nat.strong_induction_on with
  | _ n ih =>
    by_cases h : n < 10
    · rw [toDigits_lt 10 n h]
      show decodeDec ([] ++ [Nat.digitChar n]) = n
      rw [decodeDec_append_one]
      simp [decodeDec, digitVal_digitChar n h]
    · rw [toDigits_ge 10 n (by omega) (by omega), decodeDec_append_one,
          ih (n / 10) (Nat.div_lt_self (by omega) (by omega)),
          digitVal_digitChar _ (Nat.mod_lt n (by omega))]
      omega

theorem repr_data_eq (n : Nat) : (Nat.repr n).data = Nat.toDigits 10 n := rfl

theorem reprData_injective (m n : Nat)
    (h : (Nat.repr m).data = (Nat.repr n).data) : m = n := by
  rw [repr_data_eq, repr_data_eq] at h
  have := congrArg decodeDec h
  rwa [decodeDec_toDigits, decodeDec_toDigits] at this

theorem repr_no_underscore (n : Nat) :
    ∀ c ∈ (Nat.repr n).data, c ≠ '_' := by
  rw [repr_data_eq]
  intro c hc he
  have hd := toDigits_isDigit n c hc
  subst he
  exact absurd hd (by decide)

theorem append_underscore_inj :
    ∀ (a a' b b' : List Char), (∀ c ∈ a, c ≠ '_') → (∀ c ∈ a', c ≠ '_') →
      a ++ '_' :: b = a' ++ '_' :: b' → a = a' ∧ b = b' := by
  intro a
  induction a with
  | nil =>
    intro a' b b' _ ha' h
    cases a' with
    | nil => simpa using h
    | cons x xs =>
      simp only [List.nil_append, List.cons_append, List.cons.injEq] at h
      exact absurd h.1.symm (ha' x (by simp))
  | cons x xs ih =>
    intro a' b b' ha ha' h
    cases a' with
    | nil =>
      simp only [List.cons_append, List.nil_append, List.cons.injEq] at h
      exact absurd h.1 (ha x (by simp))
    | cons y ys =>
      simp only [List.cons_append, List.cons.injEq] at h
      obtain ⟨h1, h2⟩ := h
      subst h1
      obtain ⟨e1, e2⟩ := ih ys b b'
        (fun c hc => ha c (by simp [hc]))
        (fun c hc => ha' c (by simp [hc])) h2
      exact ⟨by rw [e1], e2⟩

/-!
### Properties of the deferred cleanup
-/

theorem data_mk (l : List Char) : (String.mk l).data = l := rfl

@[simp] theorem isLog_createFile (p : String) :
    (Effect.createFile p).isLog = false := rfl

@[simp] theorem isLog_pngEncode (p : String) (img : GoImage) :
    (Effect.pngEncode p img).isLog = false := rfl

@[simp] theorem isLog_closeFile (p : String) :
    (Effect.closeFile p).isLog = false := rfl

@[simp] theorem isLog_removeFile (p : String) :
    (Effect.removeFile p).isLog = false := rfl

@[simp] theorem isLog_runProcess (c : String) (args : List String) :
    (Effect.runProcess c args).isLog = false := rfl

@[simp] theorem isLog_logLine (m : String) :
    (Effect.logLine m).isLog = true := rfl

@[simp] theorem isRun_createFile (p : String) :
    (Effect.createFile p).isRun = false := rfl

@[simp] theorem isRun_pngEncode (p : String) (img : GoImage) :
    (Effect.pngEncode p img).isRun = false := rfl

@[simp] theorem isRun_closeFile (p : String) :
    (Effect.closeFile p).isRun = false := rfl

@[simp] theorem isRun_removeFile (p : String) :
    (Effect.removeFile p).isRun = false := rfl

@[simp] theorem isRun_runProcess (c : String) (args : List String) :
    (Effect.runProcess c args).isRun = true := rfl

@[simp] theorem isRun_logLine (m : String) :
    (Effect.logLine m).isRun = false := rfl

theorem cleanup_filter_nonlog (env : Env) (q : String) :
    (cleanupEffects env q).filter (fun ef => ! ef.isLog)
      = [Effect.closeFile q, Effect.removeFile q] := by
  cases h1 : env.deferCloseErr <;> cases h2 : env.removeOutcome <;>
    simp [cleanupEffects, h1, h2, Effect.isLog]

theorem cleanup_filter_run (env : Env) (q : String) :
    (cleanupEffects env q).filter Effect.isRun = [] := by
  cases h1 : env.deferCloseErr <;> cases h2 : env.removeOutcome <;>
    simp [cleanupEffects, h1, h2, Effect.isRun]

theorem cleanup_no_run (env : Env) (q c : String) (args : List String) :
    Effect.runProcess c args ∉ cleanupEffects env q := by
  cases h1 : env.deferCloseErr <;> cases h2 : env.removeOutcome <;>
    simp [cleanupEffects, h1, h2]

theorem cleanup_paths (env : Env) (q : String) :
    ∀ ef ∈ cleanupEffects env q,
      Effect.pathOf ef = some q ∨ Effect.pathOf ef = none := by
  intro ef hef
  cases h1 : env.deferCloseErr <;> cases h2 : env.removeOutcome <;>
    simp [cleanupEffects, h1, h2] at hef <;>
    try casesm* _ ∨ _
  all_goals subst_vars
  all_goals simp [Effect.pathOf]

theorem trace_paths (env : Env) (img : GoImage) :
    ∀ ef ∈ (copyImageToClipboardWindows env img).2,
      Effect.pathOf ef = some (tmpPathOf env) ∨ Effect.pathOf ef = none := by
  intro ef hef
  by_cases hd : env.tmpDir = ""
  · simp [copyImageToClipboardWindows, hd] at hef
  · cases hc : env.createErr <;> cases he : env.encodeErr <;>
      cases hcl : env.closeErr <;> cases hpr : env.procErr <;>
      simp [copyImageToClipboardWindows, hd, hc, he, hcl, hpr] at hef <;>
      try casesm* _ ∨ _
    all_goals
      first
        | exact cleanup_paths env
            (filepathJoin env.tmpDir (tmpFileNameOf env.pid env.unixNano)) ef
            (by assumption)
        | (subst_vars; simp [Effect.pathOf, tmpPathOf])

/-!
### The claims
-/

/-- Claim C2: for every image, when the runtime platform is anything other
than windows, `copyImageToClipboard` immediately returns an error naming
the current platform, and performs no file or process activity (empty
effect trace). -/
theorem c2_unsupported_platform_fails_with_no_activity
    (env : Env) (img : GoImage) (h : env.goos ≠ "windows") :
    copyImageToClipboard env img =
      (some ("クリップボードへの画像コピーはこのOSでは現在サポートされていません ("
               ++ env.goos ++ ")"), []) := by
  unfold copyImageToClipboard
  rw [if_neg h]
  rfl

/-- Witness for C2 at the concrete platform `linux`. -/
theorem c2_unsupported_platform_fails_with_no_activity_witness :
    copyImageToClipboard { baseEnv with goos := "linux" } (some ⟨256, 256⟩) =
      (some ("クリップボードへの画像コピーはこのOSでは現在サポートされていません ("
               ++ "linux" ++ ")"), []) :=
  c2_unsupported_platform_fails_with_no_activity
    { baseEnv with goos := "linux" } (some ⟨256, 256⟩) (by decide)

/-- Claim C8: an empty temp directory makes `copyImageToClipboardWindows`
fail immediately with an empty trace (no file created, nothing cleaned
up, no process); a failed `os.Create` makes it fail with a trace holding
only the creation attempt (no deletion attempted, no process invoked). -/
theorem c8_early_failures_stop_the_call (env : Env) (img : GoImage) :
    (env.tmpDir = "" →
       copyImageToClipboardWindows env img =
         (some "一時ディレクトリが見つかりません", [])) ∧
    (∀ e, env.tmpDir ≠ "" → env.createErr = some e →
       copyImageToClipboardWindows env img =
         (some ("一時ファイル作成失敗 (" ++ tmpPathOf env ++ "): " ++ e),
          [Effect.createFile (tmpPathOf env)])) := by
  constructor
  · intro hd
    simp [copyImageToClipboardWindows, hd]
  · intro e hd hc
    simp [copyImageToClipboardWindows, hd, hc, tmpPathOf]

/-- Witness for C8 at a concrete environment with an empty temp dir. -/
theorem c8_early_failures_stop_the_call_witness :
    copyImageToClipboardWindows { baseEnv with tmpDir := "" } (some ⟨256, 256⟩)
      = (some "一時ディレクトリが見つかりません", []) :=
  (c8_early_failures_stop_the_call { baseEnv with tmpDir := "" }
    (some ⟨256, 256⟩)).1 rfl

/-- Claim C7: if PNG encoding into the already-created temp file fails,
the call returns the encode error wrapping the underlying cause, no
external process appears in the trace, and the deferred cleanup still
closes the file and attempts removal. -/
theorem c7_encode_failure_cleans_up_without_process
    (env : Env) (img : GoImage) (hdir : env.tmpDir ≠ "")
    (hcreate : env.createErr = none) (e : String)
    (henc : env.encodeErr = some e) :
    (copyImageToClipboardWindows env img).1
        = some ("PNGエンコード失敗: " ++ e) ∧
    (∀ c args, Effect.runProcess c args ∉ (copyImageToClipboardWindows env img).2) ∧
    Effect.closeFile (tmpPathOf env) ∈ (copyImageToClipboardWindows env img).2 ∧
    Effect.removeFile (tmpPathOf env) ∈ (copyImageToClipboardWindows env img).2 := by
  refine ⟨?_, ?_, ?_, ?_⟩
  · simp [copyImageToClipboardWindows, hdir, hcreate, henc]
  · intro c args hmem
    simp [copyImageToClipboardWindows, hdir, hcreate, henc] at hmem
    exact cleanup_no_run env
      (filepathJoin env.tmpDir (tmpFileNameOf env.pid env.unixNano)) c args hmem
  · simp [copyImageToClipboardWindows, hdir, hcreate, henc, cleanupEffects, tmpPathOf]
  · simp [copyImageToClipboardWindows, hdir, hcreate, henc, cleanupEffects, tmpPathOf]

/-- Witness for C7 at a concrete environment with a failing encode. -/
theorem c7_encode_failure_cleans_up_without_process_witness :
    (copyImageToClipboardWindows
        { baseEnv with encodeErr := some "png: invalid image" }
        (some ⟨256, 256⟩)).1
      = some ("PNGエンコード失敗: " ++ "png: invalid image") :=
  (c7_encode_failure_cleans_up_without_process
      { baseEnv with encodeErr := some "png: invalid image" }
      (some ⟨256, 256⟩) (by decide) rfl "png: invalid image" rfl).1

/-- Claim C4: on the supported platform, whenever the external process
fails (launch failure or non-zero exit, i.e. `cmd.CombinedOutput`
returned an error), the returned error message contains the captured
combined output verbatim (as a suffix). -/
theorem c4_process_failure_embeds_output
    (env : Env) (img : GoImage) (hgoos : env.goos = "windows")
    (hdir : env.tmpDir ≠ "") (hcreate : env.createErr = none)
    (henc : env.encodeErr = none) (hclose : env.closeErr = none)
    (e : String) (hproc : env.procErr = some e) :
    ∃ pre : String,
      (copyImageToClipboard env img).1 = some (pre ++ env.procOutput) := by
  refine ⟨"PowerShell実行失敗: " ++ e ++ "\n出力: ", ?_⟩
  simp [copyImageToClipboard, hgoos, copyImageToClipboardWindows, hdir,
        hcreate, henc, hclose, hproc, String.append_assoc]

/-- Witness for C4 at a concrete failing process invocation. -/
theorem c4_process_failure_embeds_output_witness :
    ∃ pre : String,
      (copyImageToClipboard
          { baseEnv with procErr := some "exit status 1",
                         procOutput := "Write-Error output" }
          (some ⟨256, 256⟩)).1
        = some (pre ++ "Write-Error output") :=
  c4_process_failure_embeds_output
    { baseEnv with procErr := some "exit status 1",
                   procOutput := "Write-Error output" }
    (some ⟨256, 256⟩) rfl (by decide) rfl rfl rfl "exit status 1" rfl

/-- Claim C1: once the temp file was created successfully, every exit path
(encode failure, close failure, process failure, success) runs the
deferred cleanup: the trace closes and attempts to remove the temp file;
the outcomes of the deferred close and of the removal change neither the
returned result nor the non-log effects (they are only logged); and an
already-absent file at removal time produces no failure log at all. -/
theorem c1_deferred_cleanup_on_every_exit_path (env : Env) (img : GoImage)
    (hdir : env.tmpDir ≠ "") (hcreate : env.createErr = none) :
    (Effect.closeFile (tmpPathOf env) ∈ (copyImageToClipboardWindows env img).2 ∧
     Effect.removeFile (tmpPathOf env) ∈ (copyImageToClipboardWindows env img).2) ∧
    (∀ (dce : Option String) (ro : RemoveOutcome),
       (copyImageToClipboardWindows
           { env with deferCloseErr := dce, removeOutcome := ro } img).1
         = (copyImageToClipboardWindows env img).1 ∧
       ((copyImageToClipboardWindows
           { env with deferCloseErr := dce, removeOutcome := ro } img).2.filter
             (fun ef => ! ef.isLog))
         = ((copyImageToClipboardWindows env img).2.filter
             (fun ef => ! ef.isLog))) ∧
    (env.removeOutcome = RemoveOutcome.notExist →
       cleanupEffects env (tmpPathOf env) =
         [Effect.closeFile (tmpPathOf env)]
           ++ (match env.deferCloseErr with
               | some e => [Effect.logLine
                   ("一時ファイルクローズエラー (" ++ tmpPathOf env ++ "): " ++ e)]
               | none => [])
           ++ [Effect.removeFile (tmpPathOf env)]) := by
  refine ⟨⟨?_, ?_⟩, ?_, ?_⟩
  · cases he : env.encodeErr <;> cases hcl : env.closeErr <;> cases hpr : env.procErr <;>
      simp [copyImageToClipboardWindows, hdir, hcreate, he, hcl, hpr,
            cleanupEffects, tmpPathOf]
  · cases he : env.encodeErr <;> cases hcl : env.closeErr <;> cases hpr : env.procErr <;>
      simp [copyImageToClipboardWindows, hdir, hcreate, he, hcl, hpr,
            cleanupEffects, tmpPathOf]
  · intro dce ro
    constructor
    · cases he : env.encodeErr <;> cases hcl : env.closeErr <;> cases hpr : env.procErr <;>
        simp [copyImageToClipboardWindows, hdir, hcreate, he, hcl, hpr]
    · cases he : env.encodeErr <;> cases hcl : env.closeErr <;> cases hpr : env.procErr <;>
        simp [copyImageToClipboardWindows, hdir, hcreate, he, hcl, hpr,
              List.filter_append, cleanup_filter_nonlog]
  · intro hro
    cases hdce : env.deferCloseErr <;> simp [cleanupEffects, hro, hdce]

/-- Witness for C1 at a concrete successful environment. -/
theorem c1_deferred_cleanup_on_every_exit_path_witness :
    Effect.closeFile (tmpPathOf baseEnv)
        ∈ (copyImageToClipboardWindows baseEnv (some ⟨256, 256⟩)).2 ∧
    Effect.removeFile (tmpPathOf baseEnv)
        ∈ (copyImageToClipboardWindows baseEnv (some ⟨256, 256⟩)).2 :=
  (c1_deferred_cleanup_on_every_exit_path baseEnv (some ⟨256, 256⟩)
    (by decide) rfl).1

/-- Claim C5: every filesystem path appearing in the trace of
`copyImageToClipboardWindows` is the temp directory joined with the
filename `temp_qrcode_<pid>_<nanosecond-timestamp>.png`. -/
theorem c5_temp_path_has_the_documented_form
    (env : Env) (img : GoImage) (p : String)
    (hp : some p ∈ (copyImageToClipboardWindows env img).2.map Effect.pathOf) :
    p = filepathJoin env.tmpDir
          ("temp_qrcode_" ++ Nat.repr env.pid ++ "_"
             ++ Nat.repr env.unixNano ++ ".png") := by
  rw [List.mem_map] at hp
  obtain ⟨ef, hef, hpe⟩ := hp
  rcases trace_paths env img ef hef with h | h
  · rw [h] at hpe
    have hpq : p = tmpPathOf env := (Option.some.inj hpe).symm
    rw [hpq]
    rfl
  · rw [h] at hpe
    cases hpe

/-- Witness for C5 at a concrete successful environment. -/
theorem c5_temp_path_has_the_documented_form_witness :
    tmpPathOf baseEnv
      = filepathJoin baseEnv.tmpDir
          ("temp_qrcode_" ++ Nat.repr baseEnv.pid ++ "_"
             ++ Nat.repr baseEnv.unixNano ++ ".png") :=
  c5_temp_path_has_the_documented_form baseEnv (some ⟨256, 256⟩)
    (tmpPathOf baseEnv) (by decide)

/-- Claim C6: the generated temporary filename is an injective function of
the pair (process id, nanosecond timestamp): two calls with distinct
timestamps, or from processes with distinct pids, get distinct names. -/
theorem c6_temp_filename_injective_in_pid_and_timestamp
    (p₁ n₁ p₂ n₂ : Nat) (h : tmpFileNameOf p₁ n₁ = tmpFileNameOf p₂ n₂) :
    p₁ = p₂ ∧ n₁ = n₂ := by
  have hd := congrArg String.data h
  simp only [tmpFileNameOf, String.data_append, List.append_assoc] at hd
  have h1 := List.append_cancel_left hd
  simp only [List.singleton_append] at h1
  obtain ⟨e1, e2⟩ := append_underscore_inj _ _ _ _
    (repr_no_underscore p₁) (repr_no_underscore p₂) h1
  refine ⟨reprData_injective _ _ e1, reprData_injective _ _ ?_⟩
  exact List.append_cancel_right e2

/-- Witness for C6 at concrete pid and timestamp. -/
theorem c6_temp_filename_injective_in_pid_and_timestamp_witness :
    tmpFileNameOf 7 9 = tmpFileNameOf 7 9 ∧ ((7 : Nat) = 7 ∧ (9 : Nat) = 9) :=
  ⟨rfl, c6_temp_filename_injective_in_pid_and_timestamp 7 9 7 9 rfl⟩

/-- Counterexample to claim C3: `copyImageToClipboardWindows` performs no
nil-image validation.  Invoked with a nil image on the supported
platform, it creates the temporary file first — file activity occurs, so
the call does not fail with a validation error before any file or
process activity. -/
theorem c3_counterexample_nil_image_still_creates_file :
    Effect.createFile (tmpPathOf baseEnv)
      ∈ (copyImageToClipboard
          { baseEnv with
              encodeErr := some "invalid memory address or nil pointer dereference" }
          (none : GoImage)).2 := by
  decide

/-- Claim C3 as amended: the helper performs no validation of the image at
all.  On the supported platform with a resolvable temp directory, its
first effect is creating the temporary file, for every image including
nil, and the returned result is identical to the nil-image result (the
image value is never inspected before `png.Encode` receives it). -/
theorem c3_amended_no_nil_validation_before_file_activity
    (env : Env) (img : GoImage) (hdir : env.tmpDir ≠ "") :
    (copyImageToClipboardWindows env img).2.head?
        = some (Effect.createFile (tmpPathOf env)) ∧
    (copyImageToClipboardWindows env img).1
        = (copyImageToClipboardWindows env (none : GoImage)).1 := by
  constructor
  · cases hc : env.createErr <;> cases he : env.encodeErr <;>
      cases hcl : env.closeErr <;> cases hpr : env.procErr <;>
      simp [copyImageToClipboardWindows, hdir, hc, he, hcl, hpr, tmpPathOf]
  · cases hc : env.createErr <;> cases he : env.encodeErr <;>
      cases hcl : env.closeErr <;> cases hpr : env.procErr <;>
      simp [copyImageToClipboardWindows, hdir, hc, he, hcl, hpr]

/-- Witness for the amended C3 at a concrete environment and nil image. -/
theorem c3_amended_no_nil_validation_before_file_activity_witness :
    (copyImageToClipboardWindows baseEnv (none : GoImage)).2.head?
      = some (Effect.createFile (tmpPathOf baseEnv)) :=
  (c3_amended_no_nil_validation_before_file_activity baseEnv (none : GoImage)
    (by decide)).1

/-- Claim C9: on the supported platform with a valid image and no earlier
IO failure, the call succeeds (returns nil) exactly when the external
process invocation returns without error; the trace holds exactly one
process invocation — `powershell -Command <script>` — which comes only
after the file was created, PNG-encoded and explicitly closed; and the
script embeds the temp file path normalized to forward slashes (no
backslash survives the normalization). -/
theorem c9_success_iff_process_after_encode_and_close
    (env : Env) (img : GoImage) (hgoos : env.goos = "windows")
    (hdir : env.tmpDir ≠ "") (hcreate : env.createErr = none)
    (henc : env.encodeErr = none) (hclose : env.closeErr = none) :
    ((copyImageToClipboard env img).1 = none ↔ env.procErr = none) ∧
    ((copyImageToClipboard env img).2.filter Effect.isRun
       = [Effect.runProcess "powershell"
            ["-Command", psCmdOf (filepathToSlash (tmpPathOf env))]]) ∧
    ((copyImageToClipboard env img).2.take 4
       = [Effect.createFile (tmpPathOf env),
          Effect.pngEncode (tmpPathOf env) img,
          Effect.closeFile (tmpPathOf env),
          Effect.runProcess "powershell"
            ["-Command", psCmdOf (filepathToSlash (tmpPathOf env))]]) ∧
    (∃ pre post, psCmdOf (filepathToSlash (tmpPathOf env))
       = pre ++ filepathToSlash (tmpPathOf env) ++ post) ∧
    (∀ c ∈ (filepathToSlash (tmpPathOf env)).data, c ≠ '\\') := by
  refine ⟨?_, ?_, ?_, ⟨_, _, rfl⟩, ?_⟩
  · cases hpr : env.procErr <;>
      simp [copyImageToClipboard, hgoos, copyImageToClipboardWindows,
            hdir, hcreate, henc, hclose, hpr]
  · cases hpr : env.procErr <;>
      simp [copyImageToClipboard, hgoos, copyImageToClipboardWindows,
            hdir, hcreate, henc, hclose, hpr, List.filter_append,
            cleanup_filter_run, tmpPathOf]
  · cases hpr : env.procErr <;>
      simp [copyImageToClipboard, hgoos, copyImageToClipboardWindows,
            hdir, hcreate, henc, hclose, hpr, tmpPathOf]
  · intro c hc
    rw [filepathToSlash, data_mk, List.mem_map] at hc
    obtain ⟨a, _, ha⟩ := hc
    subst ha
    by_cases hb : a = '\\' <;> simp [hb]

/-- Witness for C9 at a concrete successful environment. -/
theorem c9_success_iff_process_after_encode_and_close_witness :
    (copyImageToClipboard baseEnv (some ⟨256, 256⟩)).1 = none
      ↔ baseEnv.procErr = none :=
  (c9_success_iff_process_after_encode_and_close baseEnv (some ⟨256, 256⟩)
    rfl (by decide) rfl rfl rfl).1

/-- Claim C10: the application enforces the helper's non-nil precondition
at the call site: `copyAction` does not invoke `copyImageToClipboard`
when `currentImage` is nil, it invokes it with a non-nil interface value
otherwise, and `generateAction` leaves `currentImage` non-nil only when
the QR encode and the image decode both succeeded (every failure path,
including empty input, resets it to nil). -/
theorem c10_copy_precondition_enforced_at_call_site :
    (∀ env : Env, copyAction env none = none) ∧
    (∀ (env : Env) (img : RasterImage),
       copyAction env (some img) = some (copyImageToClipboard env (some img))) ∧
    (∀ (genv : GenEnv) (t : String) (img : RasterImage),
       generateAction genv t = some img →
         t ≠ "" ∧ ∃ png, genv.qrEncode t = Except.ok png ∧
                         genv.imageDecode png = Except.ok img) := by
  refine ⟨fun env => rfl, fun env img => rfl, ?_⟩
  intro genv t img h
  unfold generateAction at h
  by_cases ht : t = ""
  · simp [ht] at h
  · rw [if_neg ht] at h
    refine ⟨ht, ?_⟩
    cases hq : genv.qrEncode t with
    | error e => simp [hq] at h
    | ok png =>
        cases hdec : genv.imageDecode png with
        | error e => simp [hq, hdec] at h
        | ok i =>
            simp [hq, hdec] at h
            exact ⟨png, rfl, by simp [hdec, h]⟩

/-- Witness for C10 at a concrete successful generation. -/
theorem c10_copy_precondition_enforced_at_call_site_witness :
    "https://example.com" ≠ "" ∧
    ∃ png, genEnvOk.qrEncode "https://example.com" = Except.ok png ∧
           genEnvOk.imageDecode png = Except.ok ⟨256, 256⟩ :=
  c10_copy_precondition_enforced_at_call_site.2.2 genEnvOk
    "https://example.com" ⟨256, 256⟩ (by decide)

end QrcodeMake
